import Mathlib

/-!
Verification development for the hue26 terminal client.

The source is shallow-embedded: JavaScript numbers are modelled as
rationals (`ℚ`), absent/non-numeric values as `Option ℚ`, and the two
transcendental library functions `Math.log` and `Math.pow` are passed as
explicit function parameters `lg : ℚ → ℚ` and `pw : ℚ → ℚ → ℚ`, since
every property proved here is independent of their values.  Fallible
conversions return `Option String`.
-/

namespace Hue26

/-- `Math.round`: round half toward positive infinity. -/
def jsRound (q : ℚ) : ℤ := ⌊q + 1/2⌋

/-- `n.toString(16)` for a natural number: lowercase hex digits. -/
def jsToString16 (n : ℕ) : List Char := Nat.toDigits 16 n

/-- `.padStart(2, "0")` on a digit list. -/
def padStart2 (l : List Char) : List Char := List.replicate (2 - l.length) '0' ++ l

/-- `v.toString(16).padStart(2, "0")` for a natural channel value. -/
def toHexByte (n : ℕ) : List Char := padStart2 (jsToString16 n)

/-- The clamp to [0,1] used by `xyBriToHex` (`Math.max(0, Math.min(1, c))`). -/
def clamp01 (c : ℚ) : ℚ := max 0 (min 1 c)

/-- sRGB gamma correction: `c <= 0.0031308 ? 12.92 * c : 1.055 * Math.pow(c, 1/2.4) - 0.055`. -/
def gammaCorrect (pw : ℚ → ℚ → ℚ) (c : ℚ) : ℚ :=
  if c ≤ 0.0031308 then 12.92 * c else 1.055 * pw c (1/2.4) - 0.055

/-- Builds `"#" + [r, g, b].map(toHex).join("")` at the character-list level. -/
def mkColorString (r g b : ℕ) : String :=
  String.mk ('#' :: (toHexByte r ++ toHexByte g ++ toHexByte b))

/-- One channel of `xyBriToHex`'s output: `Math.round(v * 255)` of a clamped value. -/
def channel255 (v : ℚ) : ℕ := (jsRound (v * 255)).toNat

/-- `xyBriToHex(x, y, bri = 254)`.  `x`, `y` are `none` when not numeric;
`bri` is `none` when the argument is `undefined`, in which case the default
parameter value 254 applies. -/
def xyBriToHex (pw : ℚ → ℚ → ℚ) (x y bri : Option ℚ) : Option String :=
  match x, y with
  | some xv, some yv =>
    if yv = 0 then none
    else
      let z := 1 - xv - yv
      let Y := (bri.getD 254) / 254
      let X := (Y / yv) * xv
      let Z := (Y / yv) * z
      let r := X * 1.656492 - Y * 0.354851 - Z * 0.255038
      let g := -X * 0.707196 + Y * 1.655397 + Z * 0.036152
      let b := X * 0.051713 - Y * 0.121364 + Z * 1.01153
      let r2 := clamp01 (gammaCorrect pw r)
      let g2 := clamp01 (gammaCorrect pw g)
      let b2 := clamp01 (gammaCorrect pw b)
      some (mkColorString (channel255 r2) (channel255 g2) (channel255 b2))
  | _, _ => none

/-- The piecewise black-body channel formulas of `mirekToHex`, as functions of
`temp = kelvin / 100`; returns `(r, g, b)` before clamping/rounding. -/
def mirekChannels (lg : ℚ → ℚ) (pw : ℚ → ℚ → ℚ) (temp : ℚ) : ℚ × ℚ × ℚ :=
  if temp ≤ 66 then
    (255,
     99.4708025861 * lg temp - 161.1195681661,
     if temp ≤ 19 then 0 else 138.5177312231 * lg (temp - 10) - 305.0447927307)
  else
    (329.698727446 * pw (temp - 60) (-0.1332047592),
     288.1221695283 * pw (temp - 60) (-0.0755148492),
     255)

/-- `Math.max(0, Math.min(255, Math.round(v)))`. -/
def clamp255 (v : ℚ) : ℤ := max 0 (min 255 (jsRound v))

/-- The `toHex` helper of `mirekToHex`: clamp, round, two-digit hex. -/
def toHex255 (v : ℚ) : List Char := toHexByte (clamp255 v).toNat

/-- `mirekToHex(mirek)`; `none` input models a non-numeric argument. -/
def mirekToHex (lg : ℚ → ℚ) (pw : ℚ → ℚ → ℚ) (mirek : Option ℚ) : Option String :=
  match mirek with
  | none => none
  | some m =>
    if m ≤ 0 then none
    else
      let kelvin := 1000000 / m
      let temp := kelvin / 100
      let c := mirekChannels lg pw temp
      some (String.mk ('#' :: (toHex255 c.1 ++ toHex255 c.2.1 ++ toHex255 c.2.2)))

/-- A lowercase hexadecimal digit. -/
def isLowerHexDigit (c : Char) : Bool :=
  (('0' ≤ c) && (c ≤ '9')) || (('a' ≤ c) && (c ≤ 'f'))

/-- `s` has the exact shape `#rrggbb` with lowercase hex digits. -/
def isHexColor (s : String) : Bool :=
  match s.data with
  | '#' :: rest => (rest.length == 6) && rest.all isLowerHexDigit
  | _ => false

set_option maxRecDepth 10000 in
/-- For channel values in 0..255, the two-digit hex rendering is two lowercase
hex digits (checked exhaustively). -/
theorem toHexByte_wf : ∀ n : Fin 256,
    (toHexByte n.val).length = 2 ∧ (toHexByte n.val).all isLowerHexDigit := by decide

theorem isHexColor_build {r g b : ℕ} (hr : r ≤ 255) (hg : g ≤ 255) (hb : b ≤ 255) :
    isHexColor (String.mk ('#' :: (toHexByte r ++ toHexByte g ++ toHexByte b))) = true := by
  obtain ⟨hlr, har⟩ := toHexByte_wf ⟨r, Nat.lt_succ_of_le hr⟩
  obtain ⟨hlg, hag⟩ := toHexByte_wf ⟨g, Nat.lt_succ_of_le hg⟩
  obtain ⟨hlb, hab⟩ := toHexByte_wf ⟨b, Nat.lt_succ_of_le hb⟩
  simp only [isHexColor, List.all_append, List.length_append]
  simp [hlr, hlg, hlb, har, hag, hab]

theorem jsRound_le {q : ℚ} (h : q ≤ 255) : jsRound q ≤ 255 := by
  have h1 : (q + 1/2 : ℚ) < ((256 : ℤ) : ℚ) := by push_cast; linarith
  have h2 : ⌊q + 1/2⌋ < 256 := Int.floor_lt.mpr h1
  unfold jsRound
  omega

theorem clamp01_le_one (v : ℚ) : clamp01 v ≤ 1 :=
  max_le (by norm_num) (min_le_left _ _)

theorem channel255_le (v : ℚ) : channel255 (clamp01 v) ≤ 255 := by
  have h1 : clamp01 v * 255 ≤ 255 := by
    have := clamp01_le_one v
    nlinarith
  have h2 : jsRound (clamp01 v * 255) ≤ 255 := jsRound_le h1
  exact Int.toNat_le.mpr (by exact_mod_cast h2)

theorem clamp255_toNat_le (v : ℚ) : (clamp255 v).toNat ≤ 255 := by
  have h : clamp255 v ≤ 255 := max_le (by norm_num) (min_le_left _ _)
  exact Int.toNat_le.mpr (by exact_mod_cast h)

/-- C4: `xyBriToHex` and `mirekToHex` are total: they return no-color (`none`)
exactly when `x`/`y` is non-numeric or `y = 0` (respectively when `mirek` is
non-numeric or `≤ 0`), and a `some` color value on every other input. -/
theorem colorimetry_totality (lg : ℚ → ℚ) (pw : ℚ → ℚ → ℚ) (x y bri m : Option ℚ) :
    (xyBriToHex pw x y bri = none ↔ (x = none ∨ y = none ∨ y = some 0))
    ∧ (mirekToHex lg pw m = none ↔ (m = none ∨ ∃ q, m = some q ∧ q ≤ 0))
    ∧ ((x ≠ none ∧ y ≠ none ∧ y ≠ some 0) → (xyBriToHex pw x y bri).isSome)
    ∧ ((∀ q, m = some q → 0 < q) → m ≠ none → (mirekToHex lg pw m).isSome) := by
  have hxy : xyBriToHex pw x y bri = none ↔ (x = none ∨ y = none ∨ y = some 0) := by
    cases x with
    | none => simp [xyBriToHex]
    | some xv =>
      cases y with
      | none => simp [xyBriToHex]
      | some yv =>
        by_cases h : yv = 0 <;> simp [xyBriToHex, h]
  have hmk : mirekToHex lg pw m = none ↔ (m = none ∨ ∃ q, m = some q ∧ q ≤ 0) := by
    cases m with
    | none => simp [mirekToHex]
    | some q => by_cases h : q ≤ 0 <;> simp [mirekToHex, h]
  refine ⟨hxy, hmk, ?_, ?_⟩
  · intro ⟨h1, h2, h3⟩
    rw [Option.isSome_iff_ne_none]
    intro hn
    rcases hxy.mp hn with h | h | h
    · exact h1 h
    · exact h2 h
    · exact h3 h
  · intro hpos hne
    rw [Option.isSome_iff_ne_none]
    intro hn
    rcases hmk.mp hn with h | ⟨q, hq, hq0⟩
    · exact hne h
    · exact absurd (hpos q hq) (not_lt.mpr hq0)

/-- C10: every color value either conversion returns has the exact shape
`#rrggbb`: a hash sign followed by six lowercase hexadecimal digits, for all
inputs (including any numeric brightness argument). -/
theorem hex_output_wellformed (lg : ℚ → ℚ) (pw : ℚ → ℚ → ℚ) (x y bri m : Option ℚ)
    (s t : String)
    (hxy : xyBriToHex pw x y bri = some s) (hmk : mirekToHex lg pw m = some t) :
    isHexColor s = true ∧ isHexColor t = true := by
  constructor
  · cases x with
    | none => simp [xyBriToHex] at hxy
    | some xv =>
      cases y with
      | none => simp [xyBriToHex] at hxy
      | some yv =>
        by_cases h : yv = 0
        · simp [xyBriToHex, h] at hxy
        · simp only [xyBriToHex, if_neg h, Option.some.injEq] at hxy
          subst hxy
          exact isHexColor_build (channel255_le _) (channel255_le _) (channel255_le _)
  · cases m with
    | none => simp [mirekToHex] at hmk
    | some q =>
      by_cases h : q ≤ 0
      · simp [mirekToHex, h] at hmk
      · simp only [mirekToHex, if_neg h, Option.some.injEq] at hmk
        subst hmk
        exact isHexColor_build (clamp255_toNat_le _) (clamp255_toNat_le _) (clamp255_toNat_le _)

/-- Witness for C10 at concrete inputs. -/
theorem hex_output_wellformed_witness :
    isHexColor "#000000" = true ∧ isHexColor "#ff0000" = true :=
  hex_output_wellformed (fun _ => 0) (fun _ _ => 0) (some (3/10)) (some (3/10)) none
    (some 200) "#000000" "#ff0000"
    (by
      rw [xyBriToHex]
      norm_num [clamp01, gammaCorrect, channel255, jsRound, mkColorString]
      decide)
    (by
      rw [mirekToHex]
      norm_num [mirekChannels, toHex255, clamp255, jsRound]
      decide)

/-- C5: for numeric `mirek > 0`, `mirekToHex` computes `kelvin = 1000000/mirek`
and `temp = kelvin/100`; at or below the threshold 66 red is saturated at 255,
green follows the logarithmic formula, and blue is 0 at or below 19 and
logarithmic above; above 66 red and green follow the power-law formulas and
blue is saturated at 255; each channel is clamped to [0,255] and rounded
before two-digit hex formatting. -/
theorem mirekToHex_blackbody (lg : ℚ → ℚ) (pw : ℚ → ℚ → ℚ) (m temp : ℚ)
    (hm : 0 < m) (ht : temp = 1000000 / m / 100) :
    mirekToHex lg pw (some m) =
      some (String.mk ('#' :: (toHex255 (mirekChannels lg pw temp).1
        ++ toHex255 (mirekChannels lg pw temp).2.1
        ++ toHex255 (mirekChannels lg pw temp).2.2)))
    ∧ (temp ≤ 66 →
        (mirekChannels lg pw temp).1 = 255
        ∧ (mirekChannels lg pw temp).2.1 = 99.4708025861 * lg temp - 161.1195681661
        ∧ (temp ≤ 19 → (mirekChannels lg pw temp).2.2 = 0)
        ∧ (19 < temp →
            (mirekChannels lg pw temp).2.2
              = 138.5177312231 * lg (temp - 10) - 305.0447927307))
    ∧ (66 < temp →
        (mirekChannels lg pw temp).1 = 329.698727446 * pw (temp - 60) (-0.1332047592)
        ∧ (mirekChannels lg pw temp).2.1 = 288.1221695283 * pw (temp - 60) (-0.0755148492)
        ∧ (mirekChannels lg pw temp).2.2 = 255)
    ∧ (∀ v : ℚ, toHex255 v = toHexByte (max 0 (min 255 (jsRound v))).toNat
        ∧ 0 ≤ clamp255 v ∧ clamp255 v ≤ 255) := by
  subst ht
  refine ⟨?_, ?_, ?_, ?_⟩
  · simp [mirekToHex, not_le.mpr hm]
  · intro h66
    rw [mirekChannels, if_pos h66]
    refine ⟨rfl, rfl, ?_, ?_⟩
    · intro h19
      simp [if_pos h19]
    · intro h19
      simp [if_neg (not_le.mpr h19)]
  · intro h66
    rw [mirekChannels, if_neg (not_le.mpr h66)]
    exact ⟨rfl, rfl, rfl⟩
  · intro v
    refine ⟨rfl, le_max_left _ _, max_le (by norm_num) (min_le_left _ _)⟩

/-- Witness for C5 at `mirek = 200` (so `temp = 50`). -/
theorem mirekToHex_blackbody_witness :
    mirekToHex (fun _ => 0) (fun _ _ => 0) (some 200) =
      some (String.mk ('#' :: (toHex255 (mirekChannels (fun _ => 0) (fun _ _ => 0) 50).1
        ++ toHex255 (mirekChannels (fun _ => 0) (fun _ _ => 0) 50).2.1
        ++ toHex255 (mirekChannels (fun _ => 0) (fun _ _ => 0) 50).2.2)))
    ∧ ((50 : ℚ) ≤ 66 →
        (mirekChannels (fun _ => 0) (fun _ _ => 0) 50).1 = 255
        ∧ (mirekChannels (fun _ => 0) (fun _ _ => 0) 50).2.1
            = 99.4708025861 * (fun _ : ℚ => (0 : ℚ)) 50 - 161.1195681661
        ∧ ((50 : ℚ) ≤ 19 → (mirekChannels (fun _ => 0) (fun _ _ => 0) 50).2.2 = 0)
        ∧ ((19 : ℚ) < 50 →
            (mirekChannels (fun _ => 0) (fun _ _ => 0) 50).2.2
              = 138.5177312231 * (fun _ : ℚ => (0 : ℚ)) (50 - 10) - 305.0447927307))
    ∧ ((66 : ℚ) < 50 →
        (mirekChannels (fun _ => 0) (fun _ _ => 0) 50).1
            = 329.698727446 * (fun _ _ : ℚ => (0 : ℚ)) (50 - 60) (-0.1332047592)
        ∧ (mirekChannels (fun _ => 0) (fun _ _ => 0) 50).2.1
            = 288.1221695283 * (fun _ _ : ℚ => (0 : ℚ)) (50 - 60) (-0.0755148492)
        ∧ (mirekChannels (fun _ => 0) (fun _ _ => 0) 50).2.2 = 255)
    ∧ (∀ v : ℚ, toHex255 v = toHexByte (max 0 (min 255 (jsRound v))).toNat
        ∧ 0 ≤ clamp255 v ∧ clamp255 v ≤ 255) :=
  mirekToHex_blackbody (fun _ => 0) (fun _ _ => 0) 200 50 (by norm_num) (by norm_num)

/-! ### Color extraction -/

/-- An entry of `scene.palette.color`: `entry?.color?.xy?.x`,
`entry?.color?.xy?.y`, `entry?.dimming?.brightness`. -/
structure PaletteColorEntry where
  x : Option ℚ
  y : Option ℚ
  bri : Option ℚ
deriving DecidableEq

/-- An entry of `scene.actions`: optional xy color, optional dimming
brightness, optional color-temperature mirek. -/
structure SceneAction where
  x : Option ℚ
  y : Option ℚ
  bri : Option ℚ
  mirek : Option ℚ
deriving DecidableEq

/-- The raw fields of a scene record that the pipeline reads. -/
structure SceneRaw where
  id : String
  name : Option String
  paletteColor : List PaletteColorEntry
  paletteColorTemperature : List (Option ℚ)
  actions : List SceneAction
deriving DecidableEq

/-- `dedupeColors(colors, limit = 6)`: skip falsy entries, deduplicate
case-insensitively on the lowercased hex string preserving first-seen order,
stop once `limit` entries are collected. -/
def dedupeColors : List (Option String) → List String → ℕ → List String
  | [], _, _ => []
  | none :: rest, seen, limit => dedupeColors rest seen limit
  | some c :: rest, seen, limit =>
    if c.toLower ∈ seen then dedupeColors rest seen limit
    else if limit ≤ 1 then [c]
    else c :: dedupeColors rest (c.toLower :: seen) (limit - 1)

/-- The concatenation built by `extractColors`, in source order: palette
colors, palette temperatures, action colors, action temperatures. -/
def extractCombined (lg : ℚ → ℚ) (pw : ℚ → ℚ → ℚ) (scene : SceneRaw) :
    List (Option String) :=
  scene.paletteColor.map (fun e => xyBriToHex pw e.x e.y e.bri)
    ++ scene.paletteColorTemperature.map (fun m => mirekToHex lg pw m)
    ++ scene.actions.map (fun a => xyBriToHex pw a.x a.y a.bri)
    ++ scene.actions.map (fun a => mirekToHex lg pw a.mirek)

/-- `extractColors(scene)`. -/
def extractColors (lg : ℚ → ℚ) (pw : ℚ → ℚ → ℚ) (scene : SceneRaw) : List String :=
  let deduped := dedupeColors (extractCombined lg pw scene) [] 6
  if deduped.isEmpty then ["#444444"] else deduped

theorem dedupeColors_length_le (l : List (Option String)) (seen : List String)
    (limit : ℕ) (h : 1 ≤ limit) : (dedupeColors l seen limit).length ≤ limit := by
  induction l generalizing seen limit with
  | nil => simp [dedupeColors]
  | cons hd tl ih =>
    cases hd with
    | none => exact ih seen limit h
    | some c =>
      by_cases hc : c.toLower ∈ seen
      · simpa [dedupeColors, hc] using ih seen limit h
      · by_cases hl : limit ≤ 1
        · simp [dedupeColors, hc, hl]
          omega
        · have : 1 ≤ limit - 1 := by omega
          have := ih (c.toLower :: seen) (limit - 1) this
          simp [dedupeColors, hc, hl]
          omega

theorem dedupeColors_nodup (l : List (Option String)) (seen : List String)
    (limit : ℕ) :
    ((dedupeColors l seen limit).map String.toLower).Nodup
    ∧ ∀ c ∈ dedupeColors l seen limit, c.toLower ∉ seen := by
  induction l generalizing seen limit with
  | nil => simp [dedupeColors]
  | cons hd tl ih =>
    cases hd with
    | none => exact ih seen limit
    | some c =>
      by_cases hc : c.toLower ∈ seen
      · simpa [dedupeColors, hc] using ih seen limit
      · by_cases hl : limit ≤ 1
        · simp [dedupeColors, hc, hl]
        · obtain ⟨hnd, hout⟩ := ih (c.toLower :: seen) (limit - 1)
          simp only [dedupeColors, if_neg hc, if_neg hl, List.map_cons,
            List.nodup_cons, List.mem_cons, not_or]
          refine ⟨⟨?_, hnd⟩, fun d hd => ?_⟩
          · intro hmem
            obtain ⟨d, hdmem, hdeq⟩ := List.mem_map.mp hmem
            exact (hout d hdmem) (by simp [hdeq])
          · rcases hd with hd | hd
            · subst hd; exact hc
            · exact fun hmem => (hout d hd) (List.mem_cons_of_mem _ hmem)

theorem dedupeColors_sublist (l : List (Option String)) (seen : List String)
    (limit : ℕ) : (dedupeColors l seen limit).Sublist (l.filterMap id) := by
  induction l generalizing seen limit with
  | nil => simp [dedupeColors]
  | cons hd tl ih =>
    cases hd with
    | none => simpa [List.filterMap_cons] using ih seen limit
    | some c =>
      by_cases hc : c.toLower ∈ seen
      · simp only [dedupeColors, if_pos hc, List.filterMap_cons]
        exact (ih seen limit).cons _
      · by_cases hl : limit ≤ 1
        · simp only [dedupeColors, if_neg hc, if_pos hl, List.filterMap_cons]
          exact (List.nil_sublist _).cons₂ _
        · simp only [dedupeColors, if_neg hc, if_neg hl, List.filterMap_cons]
          exact (ih (c.toLower :: seen) (limit - 1)).cons₂ _

/-- C3: `extractColors` concatenates palette colors, palette temperatures,
action colors and action temperatures in that order, drops no-color results,
deduplicates case-insensitively preserving first-seen order, caps the result
at 6 entries, and returns exactly `["#444444"]` when the deduplicated list is
empty. -/
theorem extractColors_spec (lg : ℚ → ℚ) (pw : ℚ → ℚ → ℚ) (scene : SceneRaw) :
    extractCombined lg pw scene
      = scene.paletteColor.map (fun e => xyBriToHex pw e.x e.y e.bri)
        ++ scene.paletteColorTemperature.map (fun m => mirekToHex lg pw m)
        ++ scene.actions.map (fun a => xyBriToHex pw a.x a.y a.bri)
        ++ scene.actions.map (fun a => mirekToHex lg pw a.mirek)
    ∧ extractColors lg pw scene
        = (if (dedupeColors (extractCombined lg pw scene) [] 6).isEmpty
           then ["#444444"]
           else dedupeColors (extractCombined lg pw scene) [] 6)
    ∧ (dedupeColors (extractCombined lg pw scene) [] 6).length ≤ 6
    ∧ ((dedupeColors (extractCombined lg pw scene) [] 6).map String.toLower).Nodup
    ∧ (dedupeColors (extractCombined lg pw scene) [] 6).Sublist
        ((extractCombined lg pw scene).filterMap id)
    ∧ (dedupeColors (extractCombined lg pw scene) [] 6 = []
        → extractColors lg pw scene = ["#444444"])
    ∧ extractColors lg pw scene ≠ [] := by
  refine ⟨rfl, rfl, dedupeColors_length_le _ _ _ (by norm_num),
    (dedupeColors_nodup _ _ _).1, dedupeColors_sublist _ _ _, ?_, ?_⟩
  · intro h
    simp [extractColors, h]
  · unfold extractColors
    by_cases h : (dedupeColors (extractCombined lg pw scene) [] 6).isEmpty
      <;> simp_all [List.isEmpty_iff]

/-! ### Scene list construction -/

/-- Three-way lexicographic comparison of character lists by code point. -/
def strCmpAux : List Char → List Char → Int
  | [], [] => 0
  | [], _ :: _ => -1
  | _ :: _, [] => 1
  | c :: cs, d :: ds =>
    if c.toNat < d.toNat then -1
    else if d.toNat < c.toNat then 1
    else strCmpAux cs ds

/-- Model of `a.localeCompare(b)`: code-point lexicographic comparison
(case-sensitive; agrees with the bridge scene names used in the scenarios). -/
def localeCompare (a b : String) : Int := strCmpAux a.data b.data

theorem strCmpAux_nil_le (l : List Char) : strCmpAux [] l ≤ 0 := by
  cases l <;> simp [strCmpAux]

theorem strCmpAux_cons_le_iff (x y : Char) (xs ys : List Char) :
    strCmpAux (x :: xs) (y :: ys) ≤ 0
      ↔ (x.toNat < y.toNat ∨ (x.toNat = y.toNat ∧ strCmpAux xs ys ≤ 0)) := by
  by_cases h1 : x.toNat < y.toNat
  · simp [strCmpAux, h1]
  · by_cases h2 : y.toNat < x.toNat
    · simp [strCmpAux, h1, h2]
      omega
    · have he : x.toNat = y.toNat := by omega
      simp [strCmpAux, h1, h2, he]

theorem strCmpAux_total : ∀ a b, strCmpAux a b ≤ 0 ∨ strCmpAux b a ≤ 0
  | [], b => Or.inl (strCmpAux_nil_le b)
  | _ :: _, [] => Or.inr (strCmpAux_nil_le _)
  | a :: as, b :: bs => by
    rcases strCmpAux_total as bs with h | h
    · by_cases h1 : a.toNat < b.toNat
      · exact Or.inl ((strCmpAux_cons_le_iff _ _ _ _).mpr (Or.inl h1))
      · by_cases h2 : b.toNat < a.toNat
        · exact Or.inr ((strCmpAux_cons_le_iff _ _ _ _).mpr (Or.inl h2))
        · exact Or.inl ((strCmpAux_cons_le_iff _ _ _ _).mpr (Or.inr ⟨by omega, h⟩))
    · by_cases h1 : a.toNat < b.toNat
      · exact Or.inl ((strCmpAux_cons_le_iff _ _ _ _).mpr (Or.inl h1))
      · by_cases h2 : b.toNat < a.toNat
        · exact Or.inr ((strCmpAux_cons_le_iff _ _ _ _).mpr (Or.inl h2))
        · exact Or.inr ((strCmpAux_cons_le_iff _ _ _ _).mpr (Or.inr ⟨by omega, h⟩))

theorem strCmpAux_trans :
    ∀ a b c, strCmpAux a b ≤ 0 → strCmpAux b c ≤ 0 → strCmpAux a c ≤ 0
  | [], _, c, _, _ => strCmpAux_nil_le c
  | _ :: _, [], _, hab, _ => by simp [strCmpAux] at hab
  | _ :: _, _ :: _, [], _, hbc => by simp [strCmpAux] at hbc
  | x :: xs, y :: ys, z :: zs, hab, hbc => by
    rw [strCmpAux_cons_le_iff] at hab hbc ⊢
    rcases hab with hab | ⟨haeq, hab⟩
    · rcases hbc with hbc | ⟨hbeq, _⟩
      · exact Or.inl (by omega)
      · exact Or.inl (by omega)
    · rcases hbc with hbc | ⟨hbeq, hbc⟩
      · exact Or.inl (by omega)
      · exact Or.inr ⟨by omega, strCmpAux_trans xs ys zs hab hbc⟩

/-- The raw fields of a smart-scene record that the load path reads. -/
structure SmartSceneRaw where
  id : String
  name : Option String
deriving DecidableEq

/-- A displayed scene entry as built by the initial load. -/
structure SceneItem where
  id : String
  name : String
  colors : List String
  type : String
deriving DecidableEq

/-- The sort relation used by `allScenes.sort((a, b) => a.name.localeCompare(b.name))`,
parameterized by the comparator model. -/
def sceneLe (cmp : String → String → Int) (a b : SceneItem) : Prop :=
  cmp a.name b.name ≤ 0

instance (cmp : String → String → Int) : DecidableRel (sceneLe cmp) :=
  fun a b => inferInstanceAs (Decidable (cmp a.name b.name ≤ 0))

/-- A regular scene entry: name defaulted to "Untitled", colors via
`extractColors`, type `"scene"`. -/
def mkRegularScene (lg : ℚ → ℚ) (pw : ℚ → ℚ → ℚ) (sc : SceneRaw) : SceneItem :=
  { id := sc.id, name := sc.name.getD "Untitled",
    colors := extractColors lg pw sc, type := "scene" }

/-- A smart-scene entry: fixed placeholder color pair, type `"smart_scene"`. -/
def mkSmartScene (sc : SmartSceneRaw) : SceneItem :=
  { id := sc.id, name := sc.name.getD "Untitled",
    colors := ["#6366f1", "#8b5cf6"], type := "smart_scene" }

/-- The scene list built by the initial load: regular scenes then smart
scenes, sorted by display name (stable sort, as `Array.prototype.sort`). -/
def buildSceneList (lg : ℚ → ℚ) (pw : ℚ → ℚ → ℚ) (cmp : String → String → Int)
    (sceneData : List SceneRaw) (smartData : List SmartSceneRaw) : List SceneItem :=
  List.insertionSort (sceneLe cmp)
    (sceneData.map (mkRegularScene lg pw) ++ smartData.map mkSmartScene)

theorem sceneLe_total (a b : SceneItem) :
    sceneLe localeCompare a b ∨ sceneLe localeCompare b a :=
  strCmpAux_total _ _

theorem sceneLe_trans (a b c : SceneItem) :
    sceneLe localeCompare a b → sceneLe localeCompare b c → sceneLe localeCompare a c :=
  strCmpAux_trans _ _ _

/-- C2: after a successful load the scene list is a permutation of all regular
scenes (colors via color extraction) followed by all smart scenes (fixed
placeholder color pair), sorted by display name under the (case-sensitive,
consistent) locale comparator; gateway order `["Evening", "Bright"]` is
displayed as `["Bright", "Evening"]`. -/
theorem sceneList_sorted (lg : ℚ → ℚ) (pw : ℚ → ℚ → ℚ) (cmp : String → String → Int)
    (sd : List SceneRaw) (smd : List SmartSceneRaw)
    (htot : ∀ a b : SceneItem, sceneLe cmp a b ∨ sceneLe cmp b a)
    (htrans : ∀ a b c : SceneItem,
      sceneLe cmp a b → sceneLe cmp b c → sceneLe cmp a c) :
    List.Perm (buildSceneList lg pw cmp sd smd)
      (sd.map (mkRegularScene lg pw) ++ smd.map mkSmartScene)
    ∧ List.Sorted (sceneLe cmp) (buildSceneList lg pw cmp sd smd)
    ∧ (∀ sc ∈ sd, mkRegularScene lg pw sc
        = { id := sc.id, name := sc.name.getD "Untitled",
            colors := extractColors lg pw sc, type := "scene" })
    ∧ (∀ sc ∈ smd, mkSmartScene sc
        = { id := sc.id, name := sc.name.getD "Untitled",
            colors := ["#6366f1", "#8b5cf6"], type := "smart_scene" })
    ∧ ((buildSceneList lg pw localeCompare
          [{ id := "s1", name := some "Evening", paletteColor := [],
             paletteColorTemperature := [], actions := [] },
           { id := "s2", name := some "Bright", paletteColor := [],
             paletteColorTemperature := [], actions := [] }] []).map SceneItem.name
        = ["Bright", "Evening"]) := by
  haveI : IsTotal SceneItem (sceneLe cmp) := ⟨htot⟩
  haveI : IsTrans SceneItem (sceneLe cmp) := ⟨htrans⟩
  refine ⟨List.perm_insertionSort _ _, List.sorted_insertionSort _ _,
    fun _ _ => rfl, fun _ _ => rfl, rfl⟩

/-- Witness for C2 with the code-point comparator model. -/
theorem sceneList_sorted_witness :
    List.Perm (buildSceneList (fun _ => 0) (fun _ _ => 0) localeCompare [] [])
      (List.map (mkRegularScene (fun _ => 0) (fun _ _ => 0)) []
        ++ List.map mkSmartScene [])
    ∧ List.Sorted (sceneLe localeCompare)
        (buildSceneList (fun _ => 0) (fun _ _ => 0) localeCompare [] [])
    ∧ (∀ sc ∈ ([] : List SceneRaw), mkRegularScene (fun _ => 0) (fun _ _ => 0) sc
        = { id := sc.id, name := sc.name.getD "Untitled",
            colors := extractColors (fun _ => 0) (fun _ _ => 0) sc, type := "scene" })
    ∧ (∀ sc ∈ ([] : List SmartSceneRaw), mkSmartScene sc
        = { id := sc.id, name := sc.name.getD "Untitled",
            colors := ["#6366f1", "#8b5cf6"], type := "smart_scene" })
    ∧ ((buildSceneList (fun _ => 0) (fun _ _ => 0) localeCompare
          [{ id := "s1", name := some "Evening", paletteColor := [],
             paletteColorTemperature := [], actions := [] },
           { id := "s2", name := some "Bright", paletteColor := [],
             paletteColorTemperature := [], actions := [] }] []).map SceneItem.name
        = ["Bright", "Evening"]) :=
  sceneList_sorted (fun _ => 0) (fun _ _ => 0) localeCompare [] []
    sceneLe_total sceneLe_trans

/-! ### Interaction controller -/

/-- The fields of a light record the controller reads: `l.on?.on` and
`l.dimming?.brightness`, each possibly absent. -/
structure Light where
  id : String
  onField : Option Bool
  brightness : Option ℚ
deriving DecidableEq

/-- `l.on?.on` as a truthy test (undefined is falsy). -/
def lightIsOn (l : Light) : Bool := l.onField.getD false

/-- `lights.some((l) => l.on?.on)`. -/
def anyLightsOn (lights : List Light) : Bool := lights.any lightIsOn

/-- `onLights.reduce((sum, l) => sum + (l.dimming?.brightness ?? 100), 0) / onLights.length`. -/
def onLightsAvg (onLights : List Light) : ℚ :=
  (onLights.foldl (fun sum l => sum + l.brightness.getD 100) 0) / (onLights.length : ℚ)

/-- The UI state owned by `SceneList` (one field per `useState`). -/
@[ext]
structure UIState where
  scenes : List SceneItem
  loading : Bool
  error : Option String
  selected : ℤ
  message : String
  setMode : Bool
  brightnessMode : Bool
  brightness : ℚ
  lights : List Light
  lightsOn : Bool
deriving DecidableEq

/-- The `useState` initial values. -/
def initState : UIState :=
  { scenes := [], loading := true, error := none, selected := 0, message := "",
    setMode := false, brightnessMode := false, brightness := 100,
    lights := [], lightsOn := false }

/-- The shared roster-refresh block: store the lights, and when non-empty
recompute aggregate power and (when some light is on) average brightness. -/
def applyLightRoster (st : UIState) (lightsArray : List Light) : UIState :=
  let st1 := { st with lights := lightsArray }
  if lightsArray.length = 0 then st1
  else
    let st2 := { st1 with lightsOn := anyLightsOn lightsArray }
    let onLights := lightsArray.filter lightIsOn
    if onLights.length = 0 then st2
    else { st2 with brightness := onLightsAvg onLights }

/-- The initial-load effect, given the outcomes of the three fetches.  The
smart-scene fetch carries `.catch(() => ({ data: [] }))`; a failure of the
scenes or lights fetch rejects the joint `Promise.all` and lands in the
`catch` block, which records the error message. -/
def loadScenes (lg : ℚ → ℚ) (pw : ℚ → ℚ → ℚ) (cmp : String → String → Int)
    (st : UIState)
    (sceneRes : Except String (List SceneRaw))
    (smartRes : Except String (List SmartSceneRaw))
    (lightRes : Except String (List Light)) : UIState :=
  match sceneRes, lightRes with
  | Except.ok sceneData, Except.ok lightData =>
    let smartData := match smartRes with
      | Except.ok d => d
      | Except.error _ => []
    let st1 := { st with scenes := buildSceneList lg pw cmp sceneData smartData }
    let st2 := applyLightRoster st1 lightData
    { st2 with loading := false }
  | Except.error e, _ => { st with error := some e, loading := false }
  | _, Except.error e => { st with error := some e, loading := false }

/-- `Math.max(1, Math.min(100, level))` in `doSetBrightness`. -/
def clampBrightness (level : ℚ) : ℚ := max 1 (min 100 level)

/-- A keyboard event as seen by the `useInput` handler. -/
inductive Key where
  | char (c : Char)
  | up
  | down
  | enter
  | esc
deriving DecidableEq

/-- The synchronous part of the `useInput` handler.  The handler is installed
unconditionally (it never consults `error` or `loading`); asynchronous
completions (`doActivate` reload, `toggleAllLights`, per-light brightness
PUTs) mutate state separately and are modelled by the dedicated functions
below. -/
def step (st : UIState) (k : Key) : UIState :=
  if k = Key.esc ∨ k = Key.char 'q' then st
  else if k = Key.char 's' ∨ k = Key.char 'S' then
    { st with setMode := !st.setMode, brightnessMode := false }
  else if k = Key.char 'b' ∨ k = Key.char 'B' then
    { st with brightnessMode := !st.brightnessMode, setMode := false }
  else if k = Key.char 'o' ∨ k = Key.char 'O' then st
  else if st.brightnessMode then
    match k with
    | Key.up => { st with brightness := clampBrightness (st.brightness + 1) }
    | Key.down => { st with brightness := clampBrightness (st.brightness - 1) }
    | _ => st
  else
    match k with
    | Key.down =>
      if st.setMode
          && (st.scenes[(min (st.selected + 1) (max 0 ((st.scenes.length : ℤ) - 1))).toNat]?).isSome then
        { st with selected := min (st.selected + 1) (max 0 ((st.scenes.length : ℤ) - 1)),
                  message := "" }
      else { st with selected := min (st.selected + 1) (max 0 ((st.scenes.length : ℤ) - 1)) }
    | Key.up =>
      if st.setMode && (st.scenes[(max (st.selected - 1) 0).toNat]?).isSome then
        { st with selected := max (st.selected - 1) 0, message := "" }
      else { st with selected := max (st.selected - 1) 0 }
    | Key.enter =>
      if st.scenes.length ≠ 0 then { st with message := "" } else st
    | _ => st

/-- `toggleAllLights`: the target power state. -/
def toggleTargetState (lights : List Light) : Bool := !(anyLightsOn lights)

/-- The concurrent power-set requests `toggleAllLights` issues: one
`(light.id, targetState)` PUT per known light. -/
def toggleRequests (st : UIState) : List (String × Bool) :=
  st.lights.map (fun l => (l.id, toggleTargetState st.lights))

/-- The state update `toggleAllLights` performs after the power-set calls and
the roster reload succeed: store the reloaded roster, set `lightsOn` to the
target state, set the transient message. -/
def toggleComplete (st : UIState) (reloaded : List Light) : UIState :=
  { st with lights := reloaded,
            lightsOn := toggleTargetState st.lights,
            message := if toggleTargetState st.lights then "On" else "Off" }

/-- The `setTimeout` delay after which the toggle message clears. -/
def toggleMessageTimeoutMs : ℕ := 2000

/-- The `setTimeout(() => setMessage(""), 2000)` callback. -/
def clearTransientMessage (st : UIState) : UIState := { st with message := "" }

theorem step_scenes (st : UIState) (k : Key) : (step st k).scenes = st.scenes := by
  unfold step
  repeat' split
  all_goals rfl

theorem step_modeInv (st : UIState) (k : Key)
    (h : st.setMode = false ∨ st.brightnessMode = false) :
    (step st k).setMode = false ∨ (step st k).brightnessMode = false := by
  unfold step
  repeat' split
  all_goals simp_all

theorem step_selected (st : UIState) (k : Key) :
    (step st k).selected = st.selected
    ∨ (step st k).selected = min (st.selected + 1) (max 0 ((st.scenes.length : ℤ) - 1))
    ∨ (step st k).selected = max (st.selected - 1) 0 := by
  unfold step
  repeat' split
  all_goals simp

theorem step_char_s (st : UIState) :
    step st (Key.char 's') = { st with setMode := !st.setMode, brightnessMode := false } := by
  unfold step
  simp

theorem step_char_S (st : UIState) :
    step st (Key.char 'S') = { st with setMode := !st.setMode, brightnessMode := false } := by
  unfold step
  simp

theorem step_char_b (st : UIState) :
    step st (Key.char 'b') = { st with brightnessMode := !st.brightnessMode, setMode := false } := by
  unfold step
  simp

theorem step_char_B (st : UIState) :
    step st (Key.char 'B') = { st with brightnessMode := !st.brightnessMode, setMode := false } := by
  unfold step
  simp

theorem foldl_modeInv (ks : List Key) (st : UIState)
    (h : st.setMode = false ∨ st.brightnessMode = false) :
    (ks.foldl step st).setMode = false ∨ (ks.foldl step st).brightnessMode = false := by
  induction ks generalizing st with
  | nil => exact h
  | cons k rest ih => exact ih _ (step_modeInv st k h)

/-- C6: pressing `s`/`S` toggles set mode and clears brightness mode, pressing
`b`/`B` toggles brightness mode and clears set mode, and from normal mode no
keypress sequence ever makes both modes active at once. -/
theorem modes_mutually_exclusive (st : UIState)
    (h1 : st.setMode = false) (_h2 : st.brightnessMode = false) :
    (∀ ks : List Key,
      ¬((ks.foldl step st).setMode = true ∧ (ks.foldl step st).brightnessMode = true))
    ∧ ((step st (Key.char 's')).setMode = !st.setMode
       ∧ (step st (Key.char 's')).brightnessMode = false)
    ∧ ((step st (Key.char 'S')).setMode = !st.setMode
       ∧ (step st (Key.char 'S')).brightnessMode = false)
    ∧ ((step st (Key.char 'b')).brightnessMode = !st.brightnessMode
       ∧ (step st (Key.char 'b')).setMode = false)
    ∧ ((step st (Key.char 'B')).brightnessMode = !st.brightnessMode
       ∧ (step st (Key.char 'B')).setMode = false) := by
  refine ⟨fun ks => ?_, ?_, ?_, ?_, ?_⟩
  · rcases foldl_modeInv ks st (Or.inl h1) with h | h <;> simp [h]
  · exact ⟨by rw [step_char_s], by rw [step_char_s]⟩
  · exact ⟨by rw [step_char_S], by rw [step_char_S]⟩
  · exact ⟨by rw [step_char_b], by rw [step_char_b]⟩
  · exact ⟨by rw [step_char_B], by rw [step_char_B]⟩

/-- Witness for C6 from the initial state. -/
theorem modes_mutually_exclusive_witness :
    (∀ ks : List Key,
      ¬((ks.foldl step initState).setMode = true
        ∧ (ks.foldl step initState).brightnessMode = true))
    ∧ ((step initState (Key.char 's')).setMode = !initState.setMode
       ∧ (step initState (Key.char 's')).brightnessMode = false)
    ∧ ((step initState (Key.char 'S')).setMode = !initState.setMode
       ∧ (step initState (Key.char 'S')).brightnessMode = false)
    ∧ ((step initState (Key.char 'b')).brightnessMode = !initState.brightnessMode
       ∧ (step initState (Key.char 'b')).setMode = false)
    ∧ ((step initState (Key.char 'B')).brightnessMode = !initState.brightnessMode
       ∧ (step initState (Key.char 'B')).setMode = false) :=
  modes_mutually_exclusive initState rfl rfl

theorem step_selInv (st : UIState) (k : Key)
    (h0 : st.scenes = [] → st.selected = 0)
    (h1 : st.scenes ≠ [] → 0 ≤ st.selected ∧ st.selected < st.scenes.length) :
    ((step st k).scenes = [] → (step st k).selected = 0)
    ∧ ((step st k).scenes ≠ [] →
        0 ≤ (step st k).selected ∧ (step st k).selected < (step st k).scenes.length) := by
  have hs := step_scenes st k
  rcases step_selected st k with he | he | he <;> rw [hs, he]
  · exact ⟨h0, h1⟩
  · constructor
    · intro hnil
      have := h0 hnil
      simp [hnil, this]
    · intro hne
      have hlen : 0 < st.scenes.length := List.length_pos.mpr hne
      obtain ⟨ha, hb⟩ := h1 hne
      constructor
      · omega
      · omega
  · constructor
    · intro hnil
      have := h0 hnil
      simp [this]
    · intro hne
      have hlen : 0 < st.scenes.length := List.length_pos.mpr hne
      obtain ⟨ha, hb⟩ := h1 hne
      constructor
      · omega
      · omega

theorem foldl_selInv (ks : List Key) (st : UIState)
    (h0 : st.scenes = [] → st.selected = 0)
    (h1 : st.scenes ≠ [] → 0 ≤ st.selected ∧ st.selected < st.scenes.length) :
    ((ks.foldl step st).scenes = [] → (ks.foldl step st).selected = 0)
    ∧ ((ks.foldl step st).scenes ≠ [] →
        0 ≤ (ks.foldl step st).selected
        ∧ (ks.foldl step st).selected < (ks.foldl step st).scenes.length) := by
  induction ks generalizing st with
  | nil => exact ⟨h0, h1⟩
  | cons k rest ih =>
    obtain ⟨g0, g1⟩ := step_selInv st k h0 h1
    exact ih _ g0 g1

/-- C7: for any keypress sequence the selection index stays in `[0, count)`
whenever the scene list is non-empty, and on an empty scene list (outside
brightness mode) each arrow press leaves the state unchanged. -/
theorem selection_clamped (st : UIState)
    (h0 : st.scenes = [] → st.selected = 0)
    (h1 : st.scenes ≠ [] → 0 ≤ st.selected ∧ st.selected < st.scenes.length) :
    (∀ ks : List Key,
      ((ks.foldl step st).scenes ≠ [] →
        0 ≤ (ks.foldl step st).selected
        ∧ (ks.foldl step st).selected < (ks.foldl step st).scenes.length)
      ∧ ((ks.foldl step st).scenes = [] → (ks.foldl step st).selected = 0))
    ∧ (st.scenes = [] → st.brightnessMode = false →
        step st Key.up = st ∧ step st Key.down = st) := by
  constructor
  · intro ks
    obtain ⟨g0, g1⟩ := foldl_selInv ks st h0 h1
    exact ⟨g1, g0⟩
  · intro hsc hb
    have hsel := h0 hsc
    have hup : step st Key.up = { st with selected := st.selected } := by
      unfold step
      simp [hb, hsc, hsel]
    have hdown : step st Key.down = { st with selected := st.selected } := by
      unfold step
      simp [hb, hsc, hsel]
    exact ⟨hup, hdown⟩

/-- Witness for C7 from the initial state (empty scene list). -/
theorem selection_clamped_witness :
    (∀ ks : List Key,
      ((ks.foldl step initState).scenes ≠ [] →
        0 ≤ (ks.foldl step initState).selected
        ∧ (ks.foldl step initState).selected < (ks.foldl step initState).scenes.length)
      ∧ ((ks.foldl step initState).scenes = [] → (ks.foldl step initState).selected = 0))
    ∧ (initState.scenes = [] → initState.brightnessMode = false →
        step initState Key.up = initState ∧ step initState Key.down = initState) :=
  selection_clamped initState (fun _ => rfl) (fun h => absurd rfl h)

theorem clampBrightness_bounds (x : ℚ) :
    1 ≤ clampBrightness x ∧ clampBrightness x ≤ 100 :=
  ⟨le_max_left _ _, max_le (by norm_num) (min_le_left _ _)⟩

theorem step_brightness_up (st : UIState) (hb : st.brightnessMode = true) :
    step st Key.up = { st with brightness := clampBrightness (st.brightness + 1) } := by
  unfold step
  simp [hb]

theorem step_brightness_down (st : UIState) (hb : st.brightnessMode = true) :
    step st Key.down = { st with brightness := clampBrightness (st.brightness - 1) } := by
  unfold step
  simp [hb]

theorem foldl_brightness_bounds (ks : List Key) (st : UIState)
    (hb : st.brightnessMode = true)
    (hlo : 1 ≤ st.brightness) (hhi : st.brightness ≤ 100)
    (hk : ∀ k ∈ ks, k = Key.up ∨ k = Key.down) :
    (ks.foldl step st).brightnessMode = true
    ∧ 1 ≤ (ks.foldl step st).brightness ∧ (ks.foldl step st).brightness ≤ 100 := by
  induction ks generalizing st with
  | nil => exact ⟨hb, hlo, hhi⟩
  | cons k rest ih =>
    have hrest : ∀ k2 ∈ rest, k2 = Key.up ∨ k2 = Key.down :=
      fun k2 hk2 => hk k2 (List.mem_cons_of_mem _ hk2)
    rcases hk k (List.mem_cons_self _ _) with rfl | rfl
    · rw [List.foldl_cons, step_brightness_up st hb]
      exact ih _ hb (clampBrightness_bounds _).1 (clampBrightness_bounds _).2 hrest
    · rw [List.foldl_cons, step_brightness_down st hb]
      exact ih _ hb (clampBrightness_bounds _).1 (clampBrightness_bounds _).2 hrest

/-- C8: in brightness mode, up/down arrows adjust the stored brightness by
±1 clamped to [1,100]; after any non-empty sequence of such presses the
stored value lies in [1,100].  The update is purely a function of the key
and the previous state: it does not depend on any per-light call outcome. -/
theorem brightness_adjust_clamped (st : UIState) (hb : st.brightnessMode = true) :
    (step st Key.up).brightness = max 1 (min 100 (st.brightness + 1))
    ∧ (step st Key.down).brightness = max 1 (min 100 (st.brightness - 1))
    ∧ (∀ ks : List Key, ks ≠ [] → (∀ k ∈ ks, k = Key.up ∨ k = Key.down) →
        1 ≤ (ks.foldl step st).brightness ∧ (ks.foldl step st).brightness ≤ 100) := by
  refine ⟨by rw [step_brightness_up st hb]; rfl,
    by rw [step_brightness_down st hb]; rfl, ?_⟩
  intro ks hne hk
  cases ks with
  | nil => exact absurd rfl hne
  | cons k rest =>
    have hrest : ∀ k2 ∈ rest, k2 = Key.up ∨ k2 = Key.down :=
      fun k2 hk2 => hk k2 (List.mem_cons_of_mem _ hk2)
    rcases hk k (List.mem_cons_self _ _) with rfl | rfl
    · rw [List.foldl_cons, step_brightness_up st hb]
      exact ((foldl_brightness_bounds rest
        { st with brightness := clampBrightness (st.brightness + 1) } hb
        (clampBrightness_bounds _).1 (clampBrightness_bounds _).2 hrest)).2
    · rw [List.foldl_cons, step_brightness_down st hb]
      exact ((foldl_brightness_bounds rest
        { st with brightness := clampBrightness (st.brightness - 1) } hb
        (clampBrightness_bounds _).1 (clampBrightness_bounds _).2 hrest)).2

/-- The state used to witness C8: brightness mode active. -/
def brightnessModeState : UIState := { initState with brightnessMode := true }

/-- Witness for C8. -/
theorem brightness_adjust_clamped_witness :
    (step brightnessModeState Key.up).brightness
      = max 1 (min 100 (brightnessModeState.brightness + 1))
    ∧ (step brightnessModeState Key.down).brightness
      = max 1 (min 100 (brightnessModeState.brightness - 1))
    ∧ (∀ ks : List Key, ks ≠ [] → (∀ k ∈ ks, k = Key.up ∨ k = Key.down) →
        1 ≤ (ks.foldl step brightnessModeState).brightness
        ∧ (ks.foldl step brightnessModeState).brightness ≤ 100) :=
  brightness_adjust_clamped brightnessModeState rfl

/-! ### Toggle-all-lights and load-error behaviour -/

/-- A light that reports itself powered on at brightness 50. -/
def lampOn : Light := { id := "l1", onField := some true, brightness := some 50 }

/-- A state whose stored roster is the single powered-on light. -/
def stAllOn : UIState := { initState with lights := [lampOn], lightsOn := true }

/-- C1 counterexample: when the roster reloaded after the toggle still
contains a powered-on light, `toggleAllLights` stores aggregate power `false`
(the target state) rather than recomputing it from the reloaded roster, and
leaves the stored average brightness untouched (100, not the roster's 50). -/
theorem toggle_power_not_recomputed :
    (toggleComplete stAllOn [lampOn]).lightsOn = false
    ∧ anyLightsOn (toggleComplete stAllOn [lampOn]).lights = true
    ∧ (toggleComplete stAllOn [lampOn]).lightsOn
        ≠ anyLightsOn (toggleComplete stAllOn [lampOn]).lights
    ∧ (toggleComplete stAllOn [lampOn]).brightness = 100
    ∧ onLightsAvg ((toggleComplete stAllOn [lampOn]).lights.filter lightIsOn) = 50 := by
  refine ⟨rfl, rfl, by decide, rfl, ?_⟩
  norm_num [toggleComplete, stAllOn, lampOn, initState, lightIsOn, onLightsAvg,
    List.filter, List.foldl]

/-- C1 (amended): `toggleAllLights` computes the target power as the negation
of "some stored light is on", issues one power-set request per known light,
and on completion stores the reloaded roster, sets the aggregate power
directly to the target state (not recomputed from the reloaded roster),
leaves the average brightness unchanged, and sets a transient "On"/"Off"
message whose timeout constant is 2000ms. -/
theorem toggleAllLights_spec (st : UIState) (reloaded : List Light) :
    toggleTargetState st.lights = !(anyLightsOn st.lights)
    ∧ toggleRequests st = st.lights.map (fun l => (l.id, !(anyLightsOn st.lights)))
    ∧ (toggleComplete st reloaded).lights = reloaded
    ∧ (toggleComplete st reloaded).lightsOn = !(anyLightsOn st.lights)
    ∧ (toggleComplete st reloaded).brightness = st.brightness
    ∧ (toggleComplete st reloaded).message
        = (if anyLightsOn st.lights then "Off" else "On")
    ∧ toggleMessageTimeoutMs = 2000
    ∧ (clearTransientMessage (toggleComplete st reloaded)).message = "" := by
  refine ⟨rfl, rfl, rfl, rfl, rfl, ?_, rfl, rfl⟩
  cases h : anyLightsOn st.lights <;>
    simp [toggleComplete, toggleTargetState, h]

/-- C9 counterexample: after a scenes-fetch failure the error value is set,
yet a subsequent `b` keypress still mutates the UI state (brightness mode
flips on), so interaction is not disabled. -/
theorem error_state_still_mutates :
    (loadScenes (fun _ => 0) (fun _ _ => 0) localeCompare initState
        (Except.error "boom") (Except.ok []) (Except.ok [])).error = some "boom"
    ∧ (loadScenes (fun _ => 0) (fun _ _ => 0) localeCompare initState
        (Except.error "boom") (Except.ok []) (Except.ok [])).brightnessMode = false
    ∧ (step (loadScenes (fun _ => 0) (fun _ _ => 0) localeCompare initState
        (Except.error "boom") (Except.ok []) (Except.ok []))
        (Key.char 'b')).brightnessMode = true
    ∧ (step (loadScenes (fun _ => 0) (fun _ _ => 0) localeCompare initState
        (Except.error "boom") (Except.ok []) (Except.ok []))
        (Key.char 'b')).error = some "boom" := by
  refine ⟨rfl, rfl, ?_, ?_⟩
  · rw [step_char_b]
    rfl
  · rw [step_char_b]
    rfl

/-- C9 (amended): a failure of only the smart-scene fetch is tolerated by
substituting an empty list; a failure of the scenes fetch or the lights fetch
sets the terminal error value (so the error screen is rendered); the input
handler is not disabled by the error, so a subsequent keypress can still
mutate the UI state. -/
theorem load_error_handling (lg : ℚ → ℚ) (pw : ℚ → ℚ → ℚ)
    (cmp : String → String → Int) (sd : List SceneRaw) (e : String)
    (smres : Except String (List SmartSceneRaw))
    (ldres : Except String (List Light)) (ld : List Light) :
    loadScenes lg pw cmp initState (Except.ok sd) (Except.error e) (Except.ok ld)
      = loadScenes lg pw cmp initState (Except.ok sd) (Except.ok []) (Except.ok ld)
    ∧ (loadScenes lg pw cmp initState (Except.error e) smres ldres).error = some e
    ∧ (loadScenes lg pw cmp initState (Except.ok sd) smres (Except.error e)).error = some e
    ∧ (step (loadScenes lg pw cmp initState (Except.error e) smres ldres)
         (Key.char 'b')).brightnessMode = true
    ∧ (step (loadScenes lg pw cmp initState (Except.error e) smres ldres)
         (Key.char 'b')).error = some e := by
  refine ⟨rfl, ?_, ?_, ?_, ?_⟩
  · cases ldres <;> rfl
  · cases smres <;> rfl
  · cases ldres <;> (rw [step_char_b]; rfl)
  · cases ldres <;> (rw [step_char_b]; rfl)

end Hue26
